import Mathlib

/-!
Shallow embedding of `openedx_google_cdn` (src/openedx_google_cdn/views.py),
the Google-CDN video-upload plugin: batch validation, signed-URL issuance,
metadata composition and catalog registration, plus the two entry points
`custom_video_upload_link_generator` and `enhanced_handle_videos`.

External collaborators (Django settings, the Google storage client, the
edxval catalog, the transcript-preference store, uuid4) are modelled as
explicit parameters; side effects are recorded in an explicit effect log.
-/

namespace GoogleCdn

/-- One entry of the request's `files` list.  The source reads entries as
dicts and checks key presence (`'file_name' not in file`), so both fields
are optional here. -/
structure FileEntry where
  file_name : Option String
  content_type : Option String
deriving Repr, DecidableEq

/-- The parsed JSON request body.  `files = none` models a body with no
`'files'` key (the source checks `'files' not in data`). -/
structure RequestData where
  files : Option (List FileEntry)
deriving Repr, DecidableEq

/-- The Django settings consumed by views.py: `ENABLE_GOOGLE_CDN`
(truthiness of the setting), `GOOGLE_CDN_HOST`, `GOOGLE_CDN_BUCKET`, and
`VIDEO_UPLOAD_PIPELINE.get("ROOT_PATH", "")` (default already applied). -/
structure Config where
  enable_google_cdn : Bool
  google_cdn_host : String
  google_cdn_bucket : String
  root_path : String
deriving Repr, DecidableEq

/-- views.py line 43: `VIDEO_SUPPORTED_FILE_FORMATS`, an insertion-ordered
dict from extension to content type. -/
def VIDEO_SUPPORTED_FILE_FORMATS : List (String × String) :=
  [(".mp4", "video/mp4"), (".mov", "video/quicktime")]

/-- `list(VIDEO_SUPPORTED_FILE_FORMATS.values())` as used on line 123. -/
def supportedContentTypes : List String :=
  VIDEO_SUPPORTED_FILE_FORMATS.map Prod.snd

/-- views.py line 49. -/
def KEY_EXPIRATION_IN_SECONDS : Nat := 86400

/-- Python's `file_name.encode('ascii')` succeeds iff every character's
code point is below 128. -/
def isAsciiEncodable (s : String) : Bool :=
  s.data.all (fun c => c.val < 128)

/-- Modelled from the spec: the object-store signing service —
`blob.generate_signed_url(version, expiration, method, content_type)` is
google-cloud-storage library code absent from src/.  Per spec §4.4/§6, the
minted URL is a capability scoped to one bucket/key, one HTTP method and
one content type, expiring `ttl` seconds after issuance
(`issued_at + fixed_ttl`). -/
structure SignedUploadURL where
  bucket : String
  key : String
  version : String
  method : String
  content_type : String
  issued_at : Nat
  expiration : Nat
deriving Repr, DecidableEq

/-- Modelled from the spec: minting a signed URL at time `now` for the
given scope, with expiration instant `now + ttl` (spec §4.4: "expires
`ttl` seconds (86400) after issuance"). -/
def generate_signed_url (bucket key version method content_type : String)
    (now ttl : Nat) : SignedUploadURL :=
  { bucket := bucket, key := key, version := version, method := method,
    content_type := content_type, issued_at := now, expiration := now + ttl }

/-- The record passed to `create_video` on views.py lines 182-190. -/
structure VideoRecord where
  edx_video_id : String
  status : String
  client_video_id : String
  duration : Nat
  encoded_videos : List String
  courses : List String
  html5_sources : List String
deriving Repr, DecidableEq

/-- One entry of the success response (views.py line 192). -/
structure RespEntry where
  file_name : String
  upload_url : SignedUploadURL
  edx_video_id : String
deriving Repr, DecidableEq

/-- The JSON body returned by `videos_post_cdn`: either
`{'files': [...]}` or `{'error': msg}`. -/
inductive CdnResponse where
  | success (files : List RespEntry)
  | error (msg : String)
deriving Repr, DecidableEq

/-- External side effects performed during one call, in order:
whether `cdn_storage_service_bucket()` ran (the object-store client/bucket
interaction), the signed URLs minted, the metadata mappings attached to
object-store keys, and the catalog writes (`create_video`). -/
structure Effects where
  bucketAcquired : Bool
  signedUrls : List SignedUploadURL
  metadatas : List (List (String × String))
  catalogWrites : List VideoRecord
deriving Repr, DecidableEq

def Effects.empty : Effects := ⟨false, [], [], []⟩

/-- Result of `videos_post_cdn`: the `(data, status)` pair plus the
effect log. -/
structure CdnOutcome where
  body : CdnResponse
  status : Nat
  effects : Effects
deriving Repr, DecidableEq

/-- views.py lines 222-230: `cdn_storage_service_key` — the object-store
key path `"{ROOT_PATH}/{file_name}"` of the blob in the bucket. -/
def cdn_storage_service_key (cfg : Config) (file_name : String) : String :=
  cfg.root_path ++ "/" ++ file_name

/-- views.py lines 197-219: `cdn_storage_service_bucket` returns the bucket
named by `GOOGLE_CDN_BUCKET`; the credential-file plumbing and client
construction are external I/O, recorded via `Effects.bucketAcquired`. -/
def cdn_storage_service_bucket (cfg : Config) : String :=
  cfg.google_cdn_bucket

/-- views.py lines 113-126: the up-front validation chain.  Returns the
first applicable error message (the `if`/`elif` chain fixes the
precedence), or `none`. -/
def validateBatch (data : RequestData) : Option String :=
  match data.files with
  | none => some "Request object is not JSON or does not contain 'files'"
  | some fs =>
    if fs.any (fun f => f.file_name.isNone || f.content_type.isNone) then
      some "Request 'files' entry does not contain 'file_name' and 'content_type'"
    else if fs.any (fun f => !supportedContentTypes.contains (f.content_type.getD "")) then
      -- every entry reaching this check has `content_type` present (the
      -- previous branch would have fired otherwise), so the default is
      -- never consulted
      some "Request 'files' entry contain unsupported content_type"
    else
      none

/-- Accumulated state of the `for req_file in req_files` loop
(views.py lines 135-192): the response entries built so far, the effect
lists in processing order, and the abort message if a non-ASCII file name
cut the loop short. -/
structure LoopState where
  resp_files : List RespEntry
  signedUrls : List SignedUploadURL
  metadatas : List (List (String × String))
  catalogWrites : List VideoRecord
  error : Option String
deriving Repr, DecidableEq

/-- The body of the per-file loop, views.py lines 135-192.  Parameters
model the externals: `courseId` is `str(course.id)`; `transcriptEnabled`
is `VideoTranscriptEnabledFlag.feature_enabled(course.id)`;
`transcriptPrefs` is `json.dumps(get_transcript_preferences(str(course.id)))`
when that lookup is non-null, else `none`; `ids n` is the `str(uuid4())`
minted at the n-th loop iteration; `now` is the issuance instant.
Field accesses `req_file['file_name']` / `req_file['content_type']` are
total here via `getD ""`: the loop only runs on batches that passed
`validateBatch`, which guarantees both keys present. -/
def processFiles (cfg : Config) (courseId : String) (transcriptEnabled : Bool)
    (transcriptPrefs : Option String) (bucket : String) (now : Nat)
    (ids : Nat → String) : List FileEntry → Nat → LoopState
  | [], _ => ⟨[], [], [], [], none⟩
  | f :: rest, idx =>
    let file_name := f.file_name.getD ""
    if !isAsciiEncodable file_name then
      ⟨[], [], [], [],
        some ("The file name for " ++ file_name ++ " must contain only ASCII characters.")⟩
    else
      let edx_video_id := ids idx
      let cdn_key := cdn_storage_service_key cfg edx_video_id
      let metadata_list :=
        [("client_video_id", file_name), ("course_key", courseId)] ++
          (if transcriptEnabled then
            match transcriptPrefs with
            | some prefs => [("transcript_preferences", prefs)]
            | none => []
          else [])
      let upload_url :=
        generate_signed_url bucket cdn_key "v4" "PUT" (f.content_type.getD "")
          now KEY_EXPIRATION_IN_SECONDS
      let source_url : Option String :=
        if cfg.enable_google_cdn then
          some (cfg.google_cdn_host ++ "/" ++ cfg.root_path ++ "/" ++ edx_video_id)
        else
          none
      let record : VideoRecord :=
        { edx_video_id := edx_video_id
          status := "upload"
          client_video_id := file_name
          duration := 0
          encoded_videos := []
          courses := [courseId]
          html5_sources := match source_url with | some u => [u] | none => [] }
      let restState := processFiles cfg courseId transcriptEnabled transcriptPrefs
        bucket now ids rest (idx + 1)
      ⟨⟨file_name, upload_url, edx_video_id⟩ :: restState.resp_files,
        upload_url :: restState.signedUrls,
        metadata_list :: restState.metadatas,
        record :: restState.catalogWrites,
        restState.error⟩

/-- views.py lines 95-194: `videos_post_cdn(course, request)`.  Validation
failure returns `({'error': ...}, 400)` before any external call; otherwise
the bucket is acquired and the per-file loop runs, aborting with a 400 on
the first non-ASCII file name (earlier files' effects stand), else
returning `({'files': resp_files}, 200)`. -/
def videos_post_cdn (cfg : Config) (courseId : String) (transcriptEnabled : Bool)
    (transcriptPrefs : Option String) (now : Nat) (ids : Nat → String)
    (data : RequestData) : CdnOutcome :=
  match validateBatch data with
  | some e => ⟨.error e, 400, Effects.empty⟩
  | none =>
    let bucket := cdn_storage_service_bucket cfg
    let st := processFiles cfg courseId transcriptEnabled transcriptPrefs
      bucket now ids (data.files.getD []) 0
    match st.error with
    | some e => ⟨.error e, 400, ⟨true, st.signedUrls, st.metadatas, st.catalogWrites⟩⟩
    | none => ⟨.success st.resp_files, 200, ⟨true, st.signedUrls, st.metadatas, st.catalogWrites⟩⟩

/-- The validated course handle returned by `_get_and_validate_course`;
only its `id` (stringified as `str(course.id)`) is consumed. -/
structure Course where
  id : String
deriving Repr, DecidableEq

/-- An HTTP response from an entry point: `HttpResponseNotFound()` (404),
a DRF `Response(data, status)` with a string body, or a
`JsonResponse(data, status)` wrapping a `videos_post`-style body. -/
inductive HandlerResponse where
  | notFound
  | rest (body : String) (status : Nat)
  | json (body : CdnResponse) (status : Nat)
deriving Repr, DecidableEq

/-- An entry point's response together with the external side effects it
performed. -/
structure HandlerOutcome where
  response : HandlerResponse
  effects : Effects
deriving Repr, DecidableEq

/-- views.py lines 80-93: `custom_video_upload_link_generator`.  `course`
is the `_get_and_validate_course` result; a failed lookup returns
`Response('Course Not Found', 400)` before anything else runs.
`hostVideosPost` is the host's default `videos_post` outcome, taken when
`ENABLE_GOOGLE_CDN` is falsy. -/
def custom_video_upload_link_generator (cfg : Config) (course : Option Course)
    (transcriptEnabled : Bool) (transcriptPrefs : Option String) (now : Nat)
    (ids : Nat → String) (hostVideosPost : HandlerOutcome)
    (data : RequestData) : HandlerOutcome :=
  match course with
  | none => ⟨.rest "Course Not Found" 400, Effects.empty⟩
  | some c =>
    if cfg.enable_google_cdn then
      let o := videos_post_cdn cfg c.id transcriptEnabled transcriptPrefs now ids data
      ⟨.json o.body o.status, o.effects⟩
    else
      hostVideosPost

/-- views.py lines 53-78: `enhanced_handle_videos`.  The host-delegated
branches (video index pages, delete, status/pagination updates, the
default `videos_post`) are passed in as their outcomes; `mock` is
`use_mock_video_uploads()`.  When the course lookup fails and mocking is
off, the function returns `HttpResponseNotFound()` before any branch runs.
In the POST branch the source dereferences `course.id`; with mocking on
and no course that access would raise, which this total model renders via
`getD ""`. -/
def enhanced_handle_videos (cfg : Config) (course : Option Course) (mock : Bool)
    (method : String) (acceptJson : Bool)
    (isStatusUpdate : Bool) (isPaginationUpdate : Bool)
    (indexJson indexHtml deleteOutcome statusUpdateOutcome paginationOutcome
      hostVideosPost : HandlerOutcome)
    (transcriptEnabled : Bool) (transcriptPrefs : Option String) (now : Nat)
    (ids : Nat → String) (data : RequestData) : HandlerOutcome :=
  if course.isNone && !mock then
    ⟨.notFound, Effects.empty⟩
  else if method == "GET" then
    if acceptJson then indexJson else indexHtml
  else if method == "DELETE" then
    deleteOutcome
  else if isStatusUpdate then
    statusUpdateOutcome
  else if isPaginationUpdate then
    paginationOutcome
  else if cfg.enable_google_cdn then
    let o := videos_post_cdn cfg ((course.map Course.id).getD "") transcriptEnabled
      transcriptPrefs now ids data
    ⟨.json o.body o.status, o.effects⟩
  else
    hostVideosPost

/-! ### Spec-side expected outputs

The following `spec*` definitions restate, file by file, what the per-file
loop is supposed to produce; they are the comparison side for the claims
and are not part of the embedding of the source. -/

/-- Does a file entry pass the in-loop ASCII check on its name? -/
def asciiOk (f : FileEntry) : Bool :=
  isAsciiEncodable (f.file_name.getD "")

/-- The abort message the loop returns for a non-ASCII file name. -/
def nonAsciiMsg (f : FileEntry) : String :=
  "The file name for " ++ f.file_name.getD "" ++ " must contain only ASCII characters."

/-- Expected response entry for one accepted file given its minted id. -/
def specEntryFor (cfg : Config) (bucket : String) (now : Nat) (id : String)
    (f : FileEntry) : RespEntry :=
  { file_name := f.file_name.getD ""
    upload_url := generate_signed_url bucket (cdn_storage_service_key cfg id)
      "v4" "PUT" (f.content_type.getD "") now KEY_EXPIRATION_IN_SECONDS
    edx_video_id := id }

/-- Expected catalog record for one accepted file given its minted id. -/
def specRecordFor (cfg : Config) (courseId : String) (id : String)
    (f : FileEntry) : VideoRecord :=
  { edx_video_id := id
    status := "upload"
    client_video_id := f.file_name.getD ""
    duration := 0
    encoded_videos := []
    courses := [courseId]
    html5_sources :=
      if cfg.enable_google_cdn then
        [cfg.google_cdn_host ++ "/" ++ cfg.root_path ++ "/" ++ id]
      else [] }

/-- Expected object-store metadata mapping for one accepted file. -/
def specMetaFor (courseId : String) (transcriptEnabled : Bool)
    (transcriptPrefs : Option String) (f : FileEntry) : List (String × String) :=
  [("client_video_id", f.file_name.getD ""), ("course_key", courseId)] ++
    (if transcriptEnabled then
      match transcriptPrefs with
      | some prefs => [("transcript_preferences", prefs)]
      | none => []
    else [])

/-- Expected response entries for a run of accepted files starting at
loop index `idx` (the n-th file gets id `ids (idx + n)`). -/
def specEntries (cfg : Config) (bucket : String) (now : Nat) (ids : Nat → String) :
    List FileEntry → Nat → List RespEntry
  | [], _ => []
  | f :: rest, idx =>
    specEntryFor cfg bucket now (ids idx) f ::
      specEntries cfg bucket now ids rest (idx + 1)

/-- Expected catalog writes for a run of accepted files starting at `idx`. -/
def specRecords (cfg : Config) (courseId : String) (ids : Nat → String) :
    List FileEntry → Nat → List VideoRecord
  | [], _ => []
  | f :: rest, idx =>
    specRecordFor cfg courseId (ids idx) f ::
      specRecords cfg courseId ids rest (idx + 1)

/-- The error outcome of the loop: `none` when every file passes the
ASCII check, else the message for the first failing file. -/
def specLoopError (fs : List FileEntry) : Option String :=
  match fs.dropWhile asciiOk with
  | [] => none
  | f :: _ => some (nonAsciiMsg f)

/-- Complete characterization of the per-file loop: it produces exactly
the expected artifacts for the longest all-ASCII prefix, and the abort
message of the first non-ASCII file when one exists. -/
theorem processFiles_eq (cfg : Config) (courseId : String) (tE : Bool)
    (tP : Option String) (bucket : String) (now : Nat) (ids : Nat → String)
    (fs : List FileEntry) (idx : Nat) :
    processFiles cfg courseId tE tP bucket now ids fs idx =
      ⟨specEntries cfg bucket now ids (fs.takeWhile asciiOk) idx,
        (specEntries cfg bucket now ids (fs.takeWhile asciiOk) idx).map
          RespEntry.upload_url,
        (fs.takeWhile asciiOk).map (specMetaFor courseId tE tP),
        specRecords cfg courseId ids (fs.takeWhile asciiOk) idx,
        specLoopError fs⟩ := by
  induction fs generalizing idx with
  | nil =>
    simp [processFiles, specEntries, specRecords, specLoopError, List.dropWhile]
  | cons f rest ih =>
    by_cases hA : isAsciiEncodable (f.file_name.getD "")
    · simp only [processFiles, specLoopError, List.takeWhile_cons, List.dropWhile_cons,
        asciiOk, hA, Bool.not_true, Bool.false_eq_true, if_false, if_true, ite_true,
        ite_false, List.map_cons, specEntries, specRecords]
      rw [ih]
      cases hC : cfg.enable_google_cdn <;>
        simp [specEntryFor, specRecordFor, specMetaFor, specLoopError, hC,
          generate_signed_url, cdn_storage_service_key]
    · simp [processFiles, specLoopError, List.takeWhile_cons, List.dropWhile_cons,
        asciiOk, hA, nonAsciiMsg, specEntries, specRecords]

/-- Positional content of `specEntries`: the entry at position `i` is the
expected entry for the i-th file, built with the id minted at loop index
`idx + i`. -/
theorem specEntries_getElem? (cfg : Config) (bucket : String) (now : Nat)
    (ids : Nat → String) (fs : List FileEntry) (idx i : Nat) :
    (specEntries cfg bucket now ids fs idx)[i]? =
      (fs[i]?).map (fun f => specEntryFor cfg bucket now (ids (idx + i)) f) := by
  induction fs generalizing idx i with
  | nil => simp [specEntries]
  | cons f rest ih =>
    cases i with
    | zero => simp [specEntries]
    | succ j =>
      have h : idx + 1 + j = idx + (j + 1) := by omega
      simp [specEntries, ih, h]

/-- Positional content of `specRecords`. -/
theorem specRecords_getElem? (cfg : Config) (courseId : String)
    (ids : Nat → String) (fs : List FileEntry) (idx i : Nat) :
    (specRecords cfg courseId ids fs idx)[i]? =
      (fs[i]?).map (fun f => specRecordFor cfg courseId (ids (idx + i)) f) := by
  induction fs generalizing idx i with
  | nil => simp [specRecords]
  | cons f rest ih =>
    cases i with
    | zero => simp [specRecords]
    | succ j =>
      have h : idx + 1 + j = idx + (j + 1) := by omega
      simp [specRecords, ih, h]

theorem specEntries_length (cfg : Config) (bucket : String) (now : Nat)
    (ids : Nat → String) (fs : List FileEntry) (idx : Nat) :
    (specEntries cfg bucket now ids fs idx).length = fs.length := by
  induction fs generalizing idx with
  | nil => simp [specEntries]
  | cons f rest ih => simp [specEntries, ih]

theorem specRecords_length (cfg : Config) (courseId : String)
    (ids : Nat → String) (fs : List FileEntry) (idx : Nat) :
    (specRecords cfg courseId ids fs idx).length = fs.length := by
  induction fs generalizing idx with
  | nil => simp [specRecords]
  | cons f rest ih => simp [specRecords, ih]

/-- An element found in `takeWhile p l` sits at the same position in `l`. -/
theorem getElem?_takeWhile {α : Type} (p : α → Bool) (l : List α) (i : Nat)
    (a : α) (h : (l.takeWhile p)[i]? = some a) : l[i]? = some a := by
  induction l generalizing i with
  | nil => simp [List.takeWhile] at h
  | cons b rest ih =>
    by_cases hp : p b
    · rw [List.takeWhile_cons_of_pos hp] at h
      cases i with
      | zero => simpa using h
      | succ j =>
        simp only [List.getElem?_cons_succ] at h ⊢
        exact ih j h
    · rw [List.takeWhile_cons_of_neg hp] at h
      simp at h

/-- When every file before position `i` passes the ASCII check and the file
at `i` fails it, the loop's accepted prefix is exactly the first `i` files
and the remainder starts at `i`. -/
theorem takeWhile_eq_take_of_first_bad (fs : List FileEntry) (i : Nat)
    (f : FileEntry)
    (hgood : ∀ j, j < i → ∀ g, fs[j]? = some g → asciiOk g = true)
    (hbad : fs[i]? = some f) (hA : asciiOk f = false) :
    fs.takeWhile asciiOk = fs.take i ∧ fs.dropWhile asciiOk = fs.drop i := by
  induction fs generalizing i with
  | nil => simp at hbad
  | cons g rest ih =>
    cases i with
    | zero =>
      simp only [List.getElem?_cons_zero, Option.some.injEq] at hbad
      subst hbad
      have hng : ¬ asciiOk g = true := by simp [hA]
      simp [List.takeWhile_cons_of_neg hng, List.dropWhile_cons_of_neg hng]
    | succ j =>
      have hg : asciiOk g = true := hgood 0 (Nat.succ_pos j) g (by simp)
      have ihj := ih j
        (fun k hk g' hg' => hgood (k + 1) (by omega) g' (by simpa using hg'))
        (by simpa using hbad)
      simp [List.takeWhile_cons_of_pos hg, List.dropWhile_cons_of_pos hg,
        ihj.1, ihj.2]

/-! ### Concrete fixtures for the witness theorems -/

def wCfg : Config := ⟨true, "https://cdn.example.org", "bkt", "videos"⟩

def wIds : Nat → String := fun n => "vid-" ++ toString n

def wEntry1 : FileEntry := ⟨some "clip.mp4", some "video/mp4"⟩

def wEntry2 : FileEntry := ⟨some "take.mov", some "video/quicktime"⟩

def wData : RequestData := ⟨some [wEntry1, wEntry2]⟩

/-! ### The claims -/

/-- C1: for every batch that passes validation and whose every file passes
the per-file ASCII check, the response is a 200 whose `files` list has one
entry per input file, in input order; the entry at position `i` carries the
i-th input's `file_name`, the signed URL minted for that file (scoped to
its key and content type), and the freshly generated `edx_video_id`
(`ids i`). -/
theorem C1_valid_batch_success (cfg : Config) (courseId : String) (tE : Bool)
    (tP : Option String) (now : Nat) (ids : Nat → String) (data : RequestData)
    (fs : List FileEntry) (hf : data.files = some fs)
    (hv : validateBatch data = none)
    (ha : ∀ f ∈ fs, asciiOk f = true) :
    (videos_post_cdn cfg courseId tE tP now ids data).status = 200 ∧
    (videos_post_cdn cfg courseId tE tP now ids data).body =
      .success (specEntries cfg (cdn_storage_service_bucket cfg) now ids fs 0) ∧
    (specEntries cfg (cdn_storage_service_bucket cfg) now ids fs 0).length =
      fs.length ∧
    ∀ i, (specEntries cfg (cdn_storage_service_bucket cfg) now ids fs 0)[i]? =
      (fs[i]?).map
        (fun f => specEntryFor cfg (cdn_storage_service_bucket cfg) now (ids i) f) := by
  have htw : fs.takeWhile asciiOk = fs := List.takeWhile_eq_self_iff.mpr ha
  have hdw : fs.dropWhile asciiOk = [] := List.dropWhile_eq_nil_iff.mpr ha
  refine ⟨?_, ?_, specEntries_length cfg _ now ids fs 0, fun i => ?_⟩
  · simp [videos_post_cdn, hv, hf, processFiles_eq, specLoopError, htw, hdw]
  · simp [videos_post_cdn, hv, hf, processFiles_eq, specLoopError, htw, hdw]
  · simpa using specEntries_getElem? cfg (cdn_storage_service_bucket cfg) now ids fs 0 i

/-- C1 witness: a concrete two-file batch produces the 200 response with
both expected entries. -/
theorem C1_witness :
    (videos_post_cdn wCfg "course-v1:A+B+C" false none 5 wIds wData).status = 200 ∧
    (videos_post_cdn wCfg "course-v1:A+B+C" false none 5 wIds wData).body =
      .success (specEntries wCfg (cdn_storage_service_bucket wCfg) 5 wIds
        [wEntry1, wEntry2] 0) := by
  have h := C1_valid_batch_success wCfg "course-v1:A+B+C" false none 5 wIds wData
    [wEntry1, wEntry2] rfl (by decide) (by decide)
  exact ⟨h.1, h.2.1⟩

/-- C2: a batch with no `files` collection, or with an entry lacking
`file_name` or `content_type`, or with an entry whose `content_type` is
outside the supported set, yields a 400 error response with no external
side effects at all: the object-store bucket is never acquired, no signed
URL is issued, no key metadata is attached, no catalog write happens. -/
theorem C2_validation_rejects (cfg : Config) (courseId : String) (tE : Bool)
    (tP : Option String) (now : Nat) (ids : Nat → String) (data : RequestData)
    (h : data.files = none ∨
      ∃ fs, data.files = some fs ∧
        ((∃ f ∈ fs, f.file_name = none ∨ f.content_type = none) ∨
         (∃ f ∈ fs, ∃ ct, f.content_type = some ct ∧
            supportedContentTypes.contains ct = false))) :
    ∃ msg, videos_post_cdn cfg courseId tE tP now ids data =
      ⟨.error msg, 400, Effects.empty⟩ := by
  have hv : ∃ msg, validateBatch data = some msg := by
    rcases h with hnone | ⟨fs, hfs, hbad⟩
    · exact ⟨"Request object is not JSON or does not contain 'files'",
        by simp [validateBatch, hnone]⟩
    · by_cases hm : fs.any (fun f => f.file_name.isNone || f.content_type.isNone)
      · exact ⟨"Request 'files' entry does not contain 'file_name' and 'content_type'",
          by simp only [validateBatch, hfs, hm, if_true]⟩
      · rcases hbad with ⟨f, hmem, hfield⟩ | ⟨f, hmem, ct, hct, hsup⟩
        · exfalso
          apply hm
          rw [List.any_eq_true]
          refine ⟨f, hmem, ?_⟩
          rcases hfield with h1 | h1 <;> simp [h1]
        · have hu : fs.any
              (fun f => !supportedContentTypes.contains (f.content_type.getD "")) = true := by
            rw [List.any_eq_true]
            refine ⟨f, hmem, ?_⟩
            rw [hct]
            simp only [Option.getD_some, hsup, Bool.not_false]
          refine ⟨"Request 'files' entry contain unsupported content_type", ?_⟩
          simp only [validateBatch, hfs, hm, hu, if_true, Bool.false_eq_true,
            ite_false, ite_true, if_false]
  obtain ⟨msg, hmsg⟩ := hv
  exact ⟨msg, by simp [videos_post_cdn, hmsg]⟩

/-- C2 witness: a one-file batch with an unsupported `image/png` content
type is rejected with a 400 and an empty effect log. -/
theorem C2_witness :
    ∃ msg, videos_post_cdn wCfg "course-v1:A+B+C" false none 5 wIds
      ⟨some [⟨some "pic.png", some "image/png"⟩]⟩ =
        ⟨.error msg, 400, Effects.empty⟩ :=
  C2_validation_rejects wCfg "course-v1:A+B+C" false none 5 wIds
    ⟨some [⟨some "pic.png", some "image/png"⟩]⟩
    (Or.inr ⟨[⟨some "pic.png", some "image/png"⟩], rfl,
      Or.inr ⟨⟨some "pic.png", some "image/png"⟩, by decide, "image/png", rfl, by decide⟩⟩)

/-- C3: when the first non-ASCII file name sits at position `i` of a batch
that passed up-front validation, the call returns a 400 whose error message
names that file; the signed URLs and catalog writes for the `i` earlier
files have already been performed (and stand), and no file at or after
position `i` produces any signed URL or catalog write. -/
theorem C3_nonascii_aborts (cfg : Config) (courseId : String) (tE : Bool)
    (tP : Option String) (now : Nat) (ids : Nat → String) (data : RequestData)
    (fs : List FileEntry) (i : Nat) (f : FileEntry)
    (hf : data.files = some fs)
    (hv : validateBatch data = none)
    (hgood : ∀ j, j < i → ∀ g, fs[j]? = some g → asciiOk g = true)
    (hbad : fs[i]? = some f) (hA : asciiOk f = false) :
    (videos_post_cdn cfg courseId tE tP now ids data).status = 400 ∧
    (videos_post_cdn cfg courseId tE tP now ids data).body =
      .error ("The file name for " ++ f.file_name.getD "" ++
        " must contain only ASCII characters.") ∧
    (videos_post_cdn cfg courseId tE tP now ids data).effects.signedUrls =
      (specEntries cfg (cdn_storage_service_bucket cfg) now ids (fs.take i) 0).map
        RespEntry.upload_url ∧
    (videos_post_cdn cfg courseId tE tP now ids data).effects.catalogWrites =
      specRecords cfg courseId ids (fs.take i) 0 ∧
    (videos_post_cdn cfg courseId tE tP now ids data).effects.signedUrls.length = i ∧
    (videos_post_cdn cfg courseId tE tP now ids data).effects.catalogWrites.length = i := by
  obtain ⟨htw, hdw⟩ := takeWhile_eq_take_of_first_bad fs i f hgood hbad hA
  obtain ⟨hlt, hval⟩ := List.getElem?_eq_some_iff.mp hbad
  have hdrop : fs.drop i = f :: fs.drop (i + 1) := by
    rw [List.drop_eq_getElem_cons hlt, hval]
  have herr : specLoopError fs = some (nonAsciiMsg f) := by
    rw [specLoopError, hdw, hdrop]
  have htklen : (fs.take i).length = i := List.length_take_of_le (Nat.le_of_lt hlt)
  refine ⟨?_, ?_, ?_, ?_, ?_, ?_⟩ <;>
    simp [videos_post_cdn, hv, hf, processFiles_eq, herr, htw, nonAsciiMsg,
      List.length_map, specEntries_length, specRecords_length, htklen]

/-- C3 witness: in a three-file batch whose middle name is `clé.mp4`, the
call aborts with the message naming that file after exactly one signed URL
and one catalog write. -/
theorem C3_witness :
    (videos_post_cdn wCfg "course-v1:A+B+C" false none 5 wIds
      ⟨some [wEntry1, ⟨some "clé.mp4", some "video/mp4"⟩, wEntry2]⟩).status = 400 ∧
    (videos_post_cdn wCfg "course-v1:A+B+C" false none 5 wIds
      ⟨some [wEntry1, ⟨some "clé.mp4", some "video/mp4"⟩, wEntry2]⟩).body =
      .error "The file name for clé.mp4 must contain only ASCII characters." ∧
    (videos_post_cdn wCfg "course-v1:A+B+C" false none 5 wIds
      ⟨some [wEntry1, ⟨some "clé.mp4", some "video/mp4"⟩, wEntry2]⟩).effects.signedUrls.length = 1 ∧
    (videos_post_cdn wCfg "course-v1:A+B+C" false none 5 wIds
      ⟨some [wEntry1, ⟨some "clé.mp4", some "video/mp4"⟩, wEntry2]⟩).effects.catalogWrites.length = 1 := by
  have h := C3_nonascii_aborts wCfg "course-v1:A+B+C" false none 5 wIds
    ⟨some [wEntry1, ⟨some "clé.mp4", some "video/mp4"⟩, wEntry2]⟩
    [wEntry1, ⟨some "clé.mp4", some "video/mp4"⟩, wEntry2] 1
    ⟨some "clé.mp4", some "video/mp4"⟩ rfl (by decide)
    (by
      intro j hj g hg
      have hj0 : j = 0 := by omega
      subst hj0
      simp only [List.getElem?_cons_zero, Option.some.injEq] at hg
      subst hg
      decide)
    (by decide) (by decide)
  exact ⟨h.1, h.2.1, h.2.2.2.2.1, h.2.2.2.2.2⟩

/-- C4: every signed URL a call issues is scoped to the single write method
`PUT` and to the exact `content_type` of the request entry at the same
position, and its expiration instant equals its issuance time plus exactly
86400 seconds (the external signer's relative-TTL semantics are modelled
from the spec in `generate_signed_url`). -/
theorem C4_signed_url_scope (cfg : Config) (courseId : String) (tE : Bool)
    (tP : Option String) (now : Nat) (ids : Nat → String) (data : RequestData)
    (fs : List FileEntry) (i : Nat) (u : SignedUploadURL)
    (hf : data.files = some fs)
    (hu : (videos_post_cdn cfg courseId tE tP now ids
      data).effects.signedUrls[i]? = some u) :
    u.method = "PUT" ∧ u.expiration = u.issued_at + 86400 ∧
    ∃ f ct, fs[i]? = some f ∧ f.content_type = some ct ∧ u.content_type = ct := by
  cases hv : validateBatch data with
  | some e =>
    simp [videos_post_cdn, hv, Effects.empty] at hu
  | none =>
    have hfields : fs.any (fun f => f.file_name.isNone || f.content_type.isNone) = false := by
      by_contra hcon
      simp only [Bool.not_eq_false] at hcon
      simp [validateBatch, hf, hcon] at hv
    have hmain : (videos_post_cdn cfg courseId tE tP now ids data).effects.signedUrls =
        (specEntries cfg (cdn_storage_service_bucket cfg) now ids
          (fs.takeWhile asciiOk) 0).map RespEntry.upload_url := by
      cases herr : specLoopError fs <;>
        simp [videos_post_cdn, hv, hf, processFiles_eq, herr]
    rw [hmain, List.getElem?_map, specEntries_getElem?] at hu
    cases hg : (fs.takeWhile asciiOk)[i]? with
    | none => rw [hg] at hu; simp at hu
    | some g =>
      rw [hg] at hu
      simp only [Option.map_some', Option.some.injEq] at hu
      have hmemfs : fs[i]? = some g := getElem?_takeWhile asciiOk fs i g hg
      have hct : g.content_type.isSome := by
        have := (List.any_eq_false.mp hfields) g (List.getElem?_mem hmemfs)
        simp only [Bool.or_eq_true, not_or, Option.isNone_iff_eq_none] at this
        cases hcg : g.content_type with
        | none => exact absurd hcg this.2
        | some ct => simp
      obtain ⟨ct, hcg⟩ := Option.isSome_iff_exists.mp hct
      refine ⟨?_, ?_, g, ct, hmemfs, hcg, ?_⟩
      · rw [← hu]; rfl
      · rw [← hu]; rfl
      · rw [← hu]
        simp [specEntryFor, generate_signed_url, hcg]

/-- C4 witness: the first URL of the concrete two-file batch is a PUT URL
for `video/mp4` expiring 86400 seconds after issuance time 5. -/
theorem C4_witness :
    (SignedUploadURL.mk "bkt" "videos/vid-0" "v4" "PUT" "video/mp4" 5 86405).method = "PUT" ∧
    (SignedUploadURL.mk "bkt" "videos/vid-0" "v4" "PUT" "video/mp4" 5 86405).expiration =
      (SignedUploadURL.mk "bkt" "videos/vid-0" "v4" "PUT" "video/mp4" 5 86405).issued_at + 86400 := by
  have h := C4_signed_url_scope wCfg "course-v1:A+B+C" false none 5 wIds wData
    [wEntry1, wEntry2] 0 ⟨"bkt", "videos/vid-0", "v4", "PUT", "video/mp4", 5, 86405⟩
    rfl (by decide)
  exact ⟨h.1, h.2.1⟩

/-- Every record in a `specRecords` list is the expected record of some
file with some minted id. -/
theorem mem_specRecords (cfg : Config) (courseId : String) (ids : Nat → String)
    (fs : List FileEntry) (idx : Nat) (r : VideoRecord)
    (h : r ∈ specRecords cfg courseId ids fs idx) :
    ∃ i f, r = specRecordFor cfg courseId (ids i) f := by
  induction fs generalizing idx with
  | nil => simp [specRecords] at h
  | cons f rest ih =>
    rw [specRecords] at h
    rcases List.mem_cons.mp h with h1 | h1
    · exact ⟨idx, f, h1⟩
    · exact ih (idx + 1) h1

/-- C5 counterexample: a concrete accepted file produces a catalog record
whose status field is the string "upload", not "awaiting upload", so the
claim's literal status value is false on the code. -/
theorem C5_counterexample :
    (videos_post_cdn wCfg "course-v1:A+B+C" false none 5 wIds
      ⟨some [wEntry1]⟩).effects.catalogWrites.map VideoRecord.status = ["upload"] ∧
    "upload" ≠ "awaiting upload" := by
  decide

/-- C5 amended: for every accepted file, the catalog record created for
the asset has status "upload" (the catalog's awaiting-upload state),
duration 0 and an empty list of encoded variants; and when the CDN feature
is enabled, its sole playback source equals
`"{cdn_host}/{root_path}/{asset_id}"`. -/
theorem C5_catalog_record_fields (cfg : Config) (courseId : String) (tE : Bool)
    (tP : Option String) (now : Nat) (ids : Nat → String) (data : RequestData)
    (r : VideoRecord)
    (hr : r ∈ (videos_post_cdn cfg courseId tE tP now ids data).effects.catalogWrites) :
    r.status = "upload" ∧ r.duration = 0 ∧ r.encoded_videos = [] ∧
    (cfg.enable_google_cdn = true →
      r.html5_sources =
        [cfg.google_cdn_host ++ "/" ++ cfg.root_path ++ "/" ++ r.edx_video_id]) := by
  cases hv : validateBatch data with
  | some e => simp [videos_post_cdn, hv, Effects.empty] at hr
  | none =>
    have hmain : (videos_post_cdn cfg courseId tE tP now ids data).effects.catalogWrites =
        specRecords cfg courseId ids ((data.files.getD []).takeWhile asciiOk) 0 := by
      cases herr : specLoopError (data.files.getD []) <;>
        simp [videos_post_cdn, hv, processFiles_eq, herr]
    rw [hmain] at hr
    obtain ⟨i, f, rfl⟩ := mem_specRecords cfg courseId ids _ 0 r hr
    refine ⟨rfl, rfl, rfl, fun hc => ?_⟩
    simp [specRecordFor, hc]

/-- C5 witness: the concrete one-file batch writes exactly the expected
record, with status "upload" and the CDN playback source. -/
theorem C5_witness :
    (VideoRecord.mk "vid-0" "upload" "clip.mp4" 0 [] ["course-v1:A+B+C"]
        ["https://cdn.example.org/videos/vid-0"]).status = "upload" ∧
    (VideoRecord.mk "vid-0" "upload" "clip.mp4" 0 [] ["course-v1:A+B+C"]
        ["https://cdn.example.org/videos/vid-0"]).html5_sources =
      [wCfg.google_cdn_host ++ "/" ++ wCfg.root_path ++ "/" ++
        (VideoRecord.mk "vid-0" "upload" "clip.mp4" 0 [] ["course-v1:A+B+C"]
          ["https://cdn.example.org/videos/vid-0"]).edx_video_id] := by
  have h := C5_catalog_record_fields wCfg "course-v1:A+B+C" false none 5 wIds
    ⟨some [wEntry1]⟩
    (VideoRecord.mk "vid-0" "upload" "clip.mp4" 0 [] ["course-v1:A+B+C"]
      ["https://cdn.example.org/videos/vid-0"]) (by decide)
  exact ⟨h.1, h.2.2.2 rfl⟩

/-- C6: for every file the loop accepts, the metadata mapping attached to
its object-store key holds `client_video_id` equal to the original file
name and `course_key` equal to the owning course id, and holds a
`transcript_preferences` entry iff the transcript flag is enabled and the
preference lookup returned a non-null (serialized) result. -/
theorem C6_metadata_contents (cfg : Config) (courseId : String) (tE : Bool)
    (tP : Option String) (now : Nat) (ids : Nat → String) (data : RequestData)
    (fs : List FileEntry) (hf : data.files = some fs) (i : Nat)
    (m : List (String × String))
    (hm : (videos_post_cdn cfg courseId tE tP now ids data).effects.metadatas[i]? = some m) :
    ∃ f, fs[i]? = some f ∧
      m.lookup "client_video_id" = some (f.file_name.getD "") ∧
      m.lookup "course_key" = some courseId ∧
      ((m.lookup "transcript_preferences").isSome = true ↔
        (tE = true ∧ tP.isSome = true)) := by
  cases hv : validateBatch data with
  | some e => simp [videos_post_cdn, hv, Effects.empty] at hm
  | none =>
    have hmain : (videos_post_cdn cfg courseId tE tP now ids data).effects.metadatas =
        (fs.takeWhile asciiOk).map (specMetaFor courseId tE tP) := by
      cases herr : specLoopError fs <;>
        simp [videos_post_cdn, hv, hf, processFiles_eq, herr]
    rw [hmain, List.getElem?_map] at hm
    cases hg : (fs.takeWhile asciiOk)[i]? with
    | none => rw [hg] at hm; simp at hm
    | some g =>
      rw [hg] at hm
      simp only [Option.map_some', Option.some.injEq] at hm
      subst hm
      have e1 : ("course_key" == "client_video_id") = false := by decide
      have e2 : ("transcript_preferences" == "client_video_id") = false := by decide
      have e3 : ("transcript_preferences" == "course_key") = false := by decide
      refine ⟨g, getElem?_takeWhile asciiOk fs i g hg, ?_, ?_, ?_⟩
      · simp [specMetaFor, List.lookup]
      · simp [specMetaFor, List.lookup, e1]
      · cases tE <;> cases htp : tP <;>
          simp [specMetaFor, List.lookup, e2, e3, htp]

/-- C6 witness: the concrete one-file batch with transcripts enabled and a
non-null preference yields a mapping with the file name, the course key
and a transcript entry. -/
theorem C6_witness :
    List.lookup "client_video_id"
      [("client_video_id", "clip.mp4"), ("course_key", "course-v1:A+B+C"),
        ("transcript_preferences", "prefs")] = some "clip.mp4" ∧
    (List.lookup "transcript_preferences"
      [("client_video_id", "clip.mp4"), ("course_key", "course-v1:A+B+C"),
        ("transcript_preferences", "prefs")]).isSome = true := by
  have h := C6_metadata_contents wCfg "course-v1:A+B+C" true (some "prefs") 5 wIds
    ⟨some [wEntry1]⟩ [wEntry1] rfl 0
    [("client_video_id", "clip.mp4"), ("course_key", "course-v1:A+B+C"),
      ("transcript_preferences", "prefs")] (by decide)
  obtain ⟨f, hf0, h1, h2, h3⟩ := h
  simp only [List.getElem?_cons_zero, Option.some.injEq] at hf0
  subst hf0
  exact ⟨h1, h3.mpr ⟨rfl, rfl⟩⟩

/-- C7 counterexample: submitting `{"files": []}` returns 200 with an
empty `files` list (after acquiring the bucket), not an error: the claimed
non-empty-batch invariant is not enforced by the code. -/
theorem C7_counterexample :
    videos_post_cdn wCfg "course-v1:A+B+C" false none 5 wIds ⟨some []⟩ =
      ⟨.success [], 200, ⟨true, [], [], []⟩⟩ := by
  decide

/-- C7 amended: a batch whose `files` collection is present but empty
passes validation and yields a 200 response with an empty result list; the
bucket is acquired but no per-file processing happens (no signed URL, no
metadata, no catalog write). -/
theorem C7_empty_batch_accepted (cfg : Config) (courseId : String) (tE : Bool)
    (tP : Option String) (now : Nat) (ids : Nat → String) (data : RequestData)
    (hf : data.files = some []) :
    videos_post_cdn cfg courseId tE tP now ids data =
      ⟨.success [], 200, ⟨true, [], [], []⟩⟩ := by
  simp [videos_post_cdn, validateBatch, hf, processFiles, specLoopError]

/-- C7 witness: the amended behavior at a second concrete empty batch. -/
theorem C7_witness :
    videos_post_cdn wCfg "course-v1:X+Y+Z" true (some "prefs") 9 wIds ⟨some []⟩ =
      ⟨.success [], 200, ⟨true, [], [], []⟩⟩ :=
  C7_empty_batch_accepted wCfg "course-v1:X+Y+Z" true (some "prefs") 9 wIds
    ⟨some []⟩ rfl

/-- C8: when the course lookup resolves to no course, both entry points
short-circuit before any file processing: the upload-link generator
returns the 400 `Course Not Found` response and `enhanced_handle_videos`
(with mock uploads off) returns `HttpResponseNotFound`, each with an empty
effect log — no validation, no signed URL, no catalog write. -/
theorem C8_course_not_found (cfg : Config) (tE : Bool) (tP : Option String)
    (now : Nat) (ids : Nat → String) (hostVideosPost : HandlerOutcome)
    (data : RequestData) (method : String)
    (acceptJson isStatusUpdate isPaginationUpdate : Bool)
    (indexJson indexHtml deleteOutcome statusUpdateOutcome
      paginationOutcome : HandlerOutcome) :
    custom_video_upload_link_generator cfg none tE tP now ids hostVideosPost data =
      ⟨.rest "Course Not Found" 400, Effects.empty⟩ ∧
    enhanced_handle_videos cfg none false method acceptJson isStatusUpdate
      isPaginationUpdate indexJson indexHtml deleteOutcome statusUpdateOutcome
      paginationOutcome hostVideosPost tE tP now ids data =
      ⟨.notFound, Effects.empty⟩ := by
  constructor
  · rfl
  · simp [enhanced_handle_videos]

/-- C9: error precedence of the validation chain: a missing `files`
collection is always reported with the malformed-request message; when
`files` is present, any entry with a missing field is reported with the
missing-field message regardless of other entries' content types; in
particular a batch holding one entry without `content_type` and another
with `image/png` yields the missing-field error. -/
theorem C9_error_precedence (cfg : Config) (courseId : String) (tE : Bool)
    (tP : Option String) (now : Nat) (ids : Nat → String) :
    (∀ data : RequestData, data.files = none →
      (videos_post_cdn cfg courseId tE tP now ids data).body =
        .error "Request object is not JSON or does not contain 'files'") ∧
    (∀ (data : RequestData) (fs : List FileEntry), data.files = some fs →
      fs.any (fun f => f.file_name.isNone || f.content_type.isNone) = true →
      (videos_post_cdn cfg courseId tE tP now ids data).body =
        .error "Request 'files' entry does not contain 'file_name' and 'content_type'") ∧
    (videos_post_cdn cfg courseId tE tP now ids
      ⟨some [⟨some "a.mp4", none⟩, ⟨some "b.png", some "image/png"⟩]⟩).body =
      .error "Request 'files' entry does not contain 'file_name' and 'content_type'" := by
  refine ⟨fun data hn => ?_, fun data fs hfs hany => ?_, ?_⟩
  · simp [videos_post_cdn, validateBatch, hn]
  · simp [videos_post_cdn, validateBatch, hfs, hany]
  · simp [videos_post_cdn, validateBatch]

/-- C9 witness: the two precedence branches at concrete inputs. -/
theorem C9_witness :
    (videos_post_cdn wCfg "course-v1:A+B+C" false none 5 wIds ⟨none⟩).body =
      .error "Request object is not JSON or does not contain 'files'" ∧
    (videos_post_cdn wCfg "course-v1:A+B+C" false none 5 wIds
      ⟨some [⟨none, some "video/mp4"⟩, ⟨some "b.png", some "image/png"⟩]⟩).body =
      .error "Request 'files' entry does not contain 'file_name' and 'content_type'" := by
  have h := C9_error_precedence wCfg "course-v1:A+B+C" false none 5 wIds
  exact ⟨h.1 ⟨none⟩ rfl,
    h.2.1 ⟨some [⟨none, some "video/mp4"⟩, ⟨some "b.png", some "image/png"⟩]⟩
      [⟨none, some "video/mp4"⟩, ⟨some "b.png", some "image/png"⟩] rfl (by decide)⟩

/-- C10: in a successful response, the entry at position `i` shares one
freshly minted identifier (`ids i`) with all artifacts of that file: the
response's `edx_video_id`, the final segment of the object-store key the
i-th signed URL targets, the i-th catalog record's `edx_video_id`, and —
when the CDN feature is enabled — the final segment of the record's sole
playback source; and the returned `upload_url` is that very signed URL. -/
theorem C10_identifier_ties (cfg : Config) (courseId : String) (tE : Bool)
    (tP : Option String) (now : Nat) (ids : Nat → String) (data : RequestData)
    (fs : List FileEntry) (es : List RespEntry)
    (hf : data.files = some fs)
    (hb : (videos_post_cdn cfg courseId tE tP now ids data).body = .success es)
    (i : Nat) (e : RespEntry) (he : es[i]? = some e) :
    ∃ u r,
      (videos_post_cdn cfg courseId tE tP now ids data).effects.signedUrls[i]? = some u ∧
      (videos_post_cdn cfg courseId tE tP now ids data).effects.catalogWrites[i]? = some r ∧
      e.upload_url = u ∧
      u.key = cfg.root_path ++ "/" ++ e.edx_video_id ∧
      r.edx_video_id = e.edx_video_id ∧
      (cfg.enable_google_cdn = true →
        r.html5_sources =
          [cfg.google_cdn_host ++ "/" ++ cfg.root_path ++ "/" ++ e.edx_video_id]) ∧
      e.edx_video_id = ids i := by
  cases hv : validateBatch data with
  | some msg => simp [videos_post_cdn, hv] at hb
  | none =>
    have hurls : (videos_post_cdn cfg courseId tE tP now ids data).effects.signedUrls =
        (specEntries cfg (cdn_storage_service_bucket cfg) now ids
          (fs.takeWhile asciiOk) 0).map RespEntry.upload_url := by
      cases herr : specLoopError fs <;>
        simp [videos_post_cdn, hv, hf, processFiles_eq, herr]
    have hrecs : (videos_post_cdn cfg courseId tE tP now ids data).effects.catalogWrites =
        specRecords cfg courseId ids (fs.takeWhile asciiOk) 0 := by
      cases herr : specLoopError fs <;>
        simp [videos_post_cdn, hv, hf, processFiles_eq, herr]
    cases herr : specLoopError fs with
    | some msg => simp [videos_post_cdn, hv, hf, processFiles_eq, herr] at hb
    | none =>
      have hdw : fs.dropWhile asciiOk = [] := by
        rw [specLoopError] at herr
        cases hdw : fs.dropWhile asciiOk with
        | nil => rfl
        | cons a l => rw [hdw] at herr; exact Option.noConfusion herr
      have htw : fs.takeWhile asciiOk = fs :=
        List.takeWhile_eq_self_iff.mpr (List.dropWhile_eq_nil_iff.mp hdw)
      have hes : specEntries cfg (cdn_storage_service_bucket cfg) now ids fs 0 = es := by
        simpa [videos_post_cdn, hv, hf, processFiles_eq, herr, htw] using hb
      rw [← hes, specEntries_getElem?] at he
      cases hgf : fs[i]? with
      | none => rw [hgf] at he; simp at he
      | some f =>
        rw [hgf] at he
        simp only [Option.map_some', Option.some.injEq] at he
        subst he
        refine ⟨_, specRecordFor cfg courseId (ids (0 + i)) f,
          ?_, ?_, rfl, ?_, ?_, ?_, ?_⟩
        · rw [hurls, htw, List.getElem?_map, specEntries_getElem?, hgf]; rfl
        · rw [hrecs, htw, specRecords_getElem?, hgf]; rfl
        · rfl
        · rfl
        · intro hc
          simp [specRecordFor, specEntryFor, hc]
        · simp [specEntryFor]

/-- C10 witness: in the concrete two-file batch, the first response
entry's id "vid-0" appears in the signed URL's key and the catalog
record. -/
theorem C10_witness :
    (videos_post_cdn wCfg "course-v1:A+B+C" false none 5 wIds
      wData).effects.signedUrls[0]? =
      some ⟨"bkt", "videos/vid-0", "v4", "PUT", "video/mp4", 5, 86405⟩ ∧
    ((videos_post_cdn wCfg "course-v1:A+B+C" false none 5 wIds
      wData).effects.catalogWrites[0]?.map VideoRecord.edx_video_id) = some "vid-0" := by
  have h := C10_identifier_ties wCfg "course-v1:A+B+C" false none 5 wIds wData
    [wEntry1, wEntry2]
    [⟨"clip.mp4", ⟨"bkt", "videos/vid-0", "v4", "PUT", "video/mp4", 5, 86405⟩, "vid-0"⟩,
     ⟨"take.mov", ⟨"bkt", "videos/vid-1", "v4", "PUT", "video/quicktime", 5, 86405⟩, "vid-1"⟩]
    rfl (by decide) 0
    ⟨"clip.mp4", ⟨"bkt", "videos/vid-0", "v4", "PUT", "video/mp4", 5, 86405⟩, "vid-0"⟩
    (by decide)
  obtain ⟨u, r, h1, h2, h3, h4, h5, h6, h7⟩ := h
  constructor
  · rw [h1, ← h3]
  · rw [h2]
    simp only [Option.map_some']
    rw [h5]

end GoogleCdn
